import Mathlib

/-!
Shallow embedding of the PDF compliance scanner in
`PDF_Analyzer/pdf_checker.py`: the format validator (`is_valid_pdf`),
the typography checker (`check_formatting`), the section detector
(`detect_sections_dynamic`) and the aggregator (`analyze_pdf`).

Strings are modelled over ASCII (the heading heuristics in the source are
ASCII regexes); outcomes of the external PDF decoding backends (PyPDF2,
pdfplumber, fitz) are modelled as fields of the input `PDFFile`, with
`Option` encoding "the backend raised". Floating point sizes and page
geometry are modelled as rationals.
-/

namespace PDFAnalyzer

/-- Python whitespace for `str.strip` and the regex class `\s`
(ASCII fragment). -/
def pySpace (c : Char) : Bool :=
  c = ' ' || c = '\t' || c = '\n' || c = '\r' || c = '\x0b' || c = '\x0c'

/-- Python `str.strip()` on a character list: drop whitespace at both ends. -/
def pyStrip (l : List Char) : List Char :=
  ((l.dropWhile pySpace).reverse.dropWhile pySpace).reverse

/-- Python `str.lower()` (ASCII). -/
def pyLower (l : List Char) : List Char :=
  l.map Char.toLower

/-- Python `str.isupper()`: some cased character, and every cased character
is uppercase (ASCII: cased = letter). -/
def pyIsUpper (l : List Char) : Bool :=
  l.any Char.isAlpha && l.all (fun c => !c.isAlpha || c.isUpper)

/-- A character allowed in the middle of the heading regex
`[A-Za-z\s\-]`. -/
def colonMidChar (c : Char) : Bool :=
  c.isAlpha || pySpace c || c = '-'

/-- The heading regex `^[A-Z][A-Za-z\s\-]+:$` applied to the stripped
line: an uppercase letter, one or more letters/whitespace/hyphens, and a
final colon. -/
def colonHeading (l : List Char) : Bool :=
  match l with
  | [] => false
  | c :: rest =>
      c.isUpper &&
      (match rest.reverse with
       | [] => false
       | last :: midRev => last = ':' && !midRev.isEmpty && midRev.all colonMidChar)

/-- The heading test of the scanner:
`re.match(r"^[A-Z][A-Za-z\s\-]+:$", line.strip()) or line.isupper()`. -/
def isHeading (line : String) : Bool :=
  colonHeading (pyStrip line.data) || pyIsUpper line.data

/-- Normalisation of a heading line into a section name:
`re.sub(r"[^a-z ]", "", line.strip().lower()).strip()`. -/
def normalizeName (line : String) : String :=
  let clean := pyLower (pyStrip line.data)
  ⟨pyStrip (clean.filter (fun c => c.isLower || c = ' '))⟩

/-- The scan state: detected sections in discovery (dict insertion) order,
each with the list of page indices attributed to it so far.  In the source
`section_starts` and `section_pages` always hold the same keys in the same
insertion order, so one ordered association list models both. -/
abbrev Sections := List (String × List Nat)

/-- Whether a section name is already registered
(`section_name not in section_starts` negated). -/
def containsKey (st : Sections) (n : String) : Bool :=
  st.any (fun p => decide (p.1 = n))

/-- `section_pages[list(section_starts.keys())[-1]].append(i)`: append a
page index to the most recently registered section. -/
def appendToLast (st : Sections) (i : Nat) : Sections :=
  match st with
  | [] => []
  | [p] => [(p.1, p.2 ++ [i])]
  | p :: q :: rest => p :: appendToLast (q :: rest) i

/-- The per-line body of the scan loop in `detect_sections_dynamic`. -/
def processLine (i : Nat) (st : Sections) (line : String) : Sections :=
  if isHeading line then
    let name := normalizeName line
    if name.isEmpty then st
    else if containsKey st name then st
    else st ++ [(name, [i])]
  else if st.isEmpty then st
  else appendToLast st i

/-- One page of the scan: fold the line body over the page text split
into lines. -/
def scanPage (i : Nat) (st : Sections) (lines : List String) : Sections :=
  lines.foldl (processLine i) st

/-- The whole scan: pages in document order, 0-based indices. -/
def scanDoc (pages : List (List String)) : Sections :=
  pages.enum.foldl (fun st p => scanPage p.1 st p.2) []

/-- Insert a page index into a strictly sorted list, skipping duplicates. -/
def insertSorted (n : Nat) : List Nat → List Nat
  | [] => [n]
  | m :: ms =>
      if n < m then n :: m :: ms
      else if n = m then m :: ms
      else m :: insertSorted n ms

/-- Python `sorted(set(l))`. -/
def sortedSet (l : List Nat) : List Nat :=
  l.foldr insertSorted []

/-- A value of the report mapping: a page count or a status string. -/
inductive Val where
  | nat (n : Nat)
  | str (s : String)
deriving DecidableEq, Repr

/-- `sec.replace(' ', '_')`. -/
def uKey (sec : String) : String :=
  ⟨sec.data.map (fun c => if c = ' ' then '_' else c)⟩

/-- Dict lookup in the limits mapping. -/
def lookupLimit : List (String × Nat) → String → Option Nat
  | [], _ => none
  | (k, v) :: rest, n => if k = n then some v else lookupLimit rest n

/-- The status computed for one section:
`"pass" if len(pages) <= max_page_limits[sec] else "fail"` when
`max_page_limits` is truthy and holds `sec`, otherwise `"n/a"`. -/
def secStatus (limits : Option (List (String × Nat))) (sec : String)
    (count : Nat) : String :=
  match limits with
  | none => "n/a"
  | some l =>
      if l.isEmpty then "n/a"
      else
        match lookupLimit l sec with
        | none => "n/a"
        | some m => if count ≤ m then "pass" else "fail"

/-- The result-building loop of `detect_sections_dynamic`: for each
section, in discovery order, emit the page-count entry then the status
entry. -/
def buildResult (limits : Option (List (String × Nat))) :
    Sections → List (String × Val)
  | [] => []
  | (sec, ps) :: rest =>
      (uKey sec ++ "_pages", Val.nat (sortedSet ps).length)
        :: (uKey sec, Val.str (secStatus limits sec (sortedSet ps).length))
        :: buildResult limits rest

/-- `detect_sections_dynamic(pdf_path, max_page_limits)`: the document is
modelled as its pages, each page as the list of lines of its extracted
text. -/
def detect_sections_dynamic (pages : List (List String))
    (limits : Option (List (String × Nat))) : List (String × Val) :=
  buildResult limits (scanDoc pages)

/-- One observed character on the first page: backend-reported font name
and floating point size (modelled as a rational). -/
structure CharSample where
  fontname : String
  size : ℚ
deriving DecidableEq, Repr

/-- The data `check_formatting` reads off the first page via pdfplumber:
the characters, the page width and height, and the content bounding box
`page.bbox = (b0, b1, b2, b3)`. -/
structure FirstPage where
  chars : List CharSample
  width : ℚ
  height : ℚ
  b0 : ℚ
  b1 : ℚ
  b2 : ℚ
  b3 : ℚ
deriving DecidableEq, Repr

/-- The three typography fields, each `"pass"` or `"fail"`. -/
structure TypResult where
  font_size : String
  font_family : String
  margin : String
deriving DecidableEq, Repr

/-- Python `round(x, 1)`: round to one decimal place.  (Python rounds
float ties to even; the claims never hinge on a tie, so the rational
nearest-rounding of Mathlib stands in.) -/
def round1 (q : ℚ) : ℚ :=
  ((round (q * 10) : ℤ) : ℚ) / 10

/-- Whether `pat` sits at the head of the second list. -/
def startsWith : List Char → List Char → Bool
  | [], _ => true
  | _ :: _, [] => false
  | p :: ps, s :: ss => if p = s then startsWith ps ss else false

/-- Whether a list holds `pat` as a contiguous sublist
(Python `pat in s` on strings). -/
def hasSubstr (pat : List Char) : List Char → Bool
  | [] => pat.isEmpty
  | c :: rest => startsWith pat (c :: rest) || hasSubstr pat rest

/-- The font-family test of the source:
`any("Times" in f or "TimesNewRoman" in f for f in fonts)`. -/
def timesMatch (f : String) : Bool :=
  hasSubstr "Times".data f.data || hasSubstr "TimesNewRoman".data f.data

/-- One margin within tolerance: `abs(m - one_inch) <= tolerance` with
`one_inch = 72`, `tolerance = 5`. -/
def marginOk (m : ℚ) : Bool :=
  decide (|m - 72| ≤ 5)

/-- `check_formatting(pdf_path)`.  The argument is the first-page data the
pdfplumber extraction sequence yields; `none` models any exception raised
inside the `try` block (missing page, corrupt stream, ...), which the
`except` clause maps to all three fields `"fail"`. -/
def check_formatting : Option FirstPage → TypResult
  | none => ⟨"fail", "fail", "fail"⟩
  | some p =>
      let sizes := p.chars.map (fun c => round1 c.size)
      let fonts := p.chars.map (fun c => c.fontname)
      let fs := if sizes.any (fun s => decide (s = 12)) then "pass" else "fail"
      let ff := if fonts.any timesMatch then "pass" else "fail"
      let left := p.b0
      let right := p.width - p.b2
      let top := p.height - p.b3
      let bottom := p.b1
      let mg :=
        if marginOk left && marginOk right && marginOk top && marginOk bottom
        then "pass" else "fail"
      ⟨fs, ff, mg⟩

/-- The input file, as seen through the three decoding backends the core
opens it with.  Each backend outcome is an independent component: the
source imposes no relation between PyPDF2 accepting the bytes, pdfplumber
decoding the first page, and fitz decoding the pages.  `none` models the
backend raising. -/
structure PDFFile where
  valid : Bool
  firstPage : Option FirstPage
  fitzPages : Option (List (List String))

/-- `is_valid_pdf(file_path)`: whether `PdfReader` parses the byte stream
without raising. -/
def is_valid_pdf (f : PDFFile) : Bool :=
  f.valid

/-- The report: the `format` mapping and the `content` mapping, in
insertion order. -/
structure Report where
  format : List (String × String)
  content : List (String × Val)
deriving DecidableEq, Repr

/-- `dict.update` of the typography fields into the format mapping. -/
def typToList (t : TypResult) : List (String × String) :=
  [("font_size", t.font_size), ("font_family", t.font_family),
   ("margin", t.margin)]

/-- `analyze_pdf(pdf_path, max_page_limits)`.  `Except.error` models an
exception escaping to the caller: the section detector opens the document
with `fitz.open` outside any handler, so a fitz failure propagates. -/
def analyze_pdf (f : PDFFile) (limits : Option (List (String × Nat))) :
    Except Unit Report :=
  if is_valid_pdf f = false then
    Except.ok ⟨[("file_type", "fail")], []⟩
  else
    match f.fitzPages with
    | none => Except.error ()
    | some pgs =>
        Except.ok ⟨("file_type", "pass") :: typToList (check_formatting f.firstPage),
                   detect_sections_dynamic pgs limits⟩

/-- The five-page document of the spec's worked example: a `SUMMARY`
heading page, two body pages, a `SKILLS:` heading page, one body page. -/
def exampleDoc : List (List String) :=
  [["SUMMARY"], ["body text"], ["body text"], ["SKILLS:"], ["body text"]]

/-- The limits mapping of the spec's worked example. -/
def exampleLimits : Option (List (String × Nat)) :=
  some [("summary", 2), ("skills", 1)]

/-- The page-count entries of a report content mapping: the entries
carrying an integer value (exactly the `"<name>_pages"` entries). -/
def resultPages (r : List (String × Val)) : List (String × Nat) :=
  r.filterMap (fun p =>
    match p.2 with
    | Val.nat n => some (p.1, n)
    | Val.str _ => none)

/-- Collapse every run of spaces to a single space. -/
def collapseSpaces : List Char → List Char
  | [] => []
  | [c] => [c]
  | c :: d :: rest =>
      if c = ' ' ∧ d = ' ' then collapseSpaces (d :: rest)
      else c :: collapseSpaces (d :: rest)

/-- The normalisation described by the claim, following the spec's words:
the line lowercased, every character other than letters and spaces
stripped, trimmed, and internal whitespace collapsed.  Stated only for
comparison against `normalizeName`, the source's normalisation. -/
def specNormalizeName (line : String) : String :=
  ⟨collapseSpaces (pyStrip ((pyLower line.data).filter
      (fun c => c.isAlpha || c = ' ')))⟩

/-! ### Helper lemmas -/

theorem pass_iff (b : Bool) :
    ((if b then "pass" else "fail") = ("pass" : String)) ↔ b = true := by
  cases b <;> simp

theorem startsWith_trans : ∀ (a b c : List Char),
    startsWith a b = true → startsWith b c = true → startsWith a c = true
  | [], _, _, _, _ => rfl
  | _ :: _, [], _, h1, _ => by simp [startsWith] at h1
  | _ :: _, _ :: _, [], _, h2 => by simp [startsWith] at h2
  | x :: as, y :: bs, z :: cs, h1, h2 => by
      simp only [startsWith] at h1 h2 ⊢
      by_cases hxy : x = y
      · subst hxy
        rw [if_pos rfl] at h1
        by_cases hyz : x = z
        · subst hyz
          rw [if_pos rfl] at h2 ⊢
          exact startsWith_trans as bs cs h1 h2
        · rw [if_neg hyz] at h2
          exact absurd h2 (by simp)
      · rw [if_neg hxy] at h1
        exact absurd h1 (by simp)

theorem hasSubstr_mono (p1 p2 : List Char) (hp : startsWith p1 p2 = true)
    (s : List Char) (h : hasSubstr p2 s = true) : hasSubstr p1 s = true := by
  induction s with
  | nil =>
      cases p2 with
      | nil =>
          cases p1 with
          | nil => rfl
          | cons x xs => simp [startsWith] at hp
      | cons y ys => simp [hasSubstr] at h
  | cons c rest ih =>
      simp only [hasSubstr, Bool.or_eq_true] at h ⊢
      rcases h with h | h
      · exact Or.inl (startsWith_trans p1 p2 (c :: rest) hp h)
      · exact Or.inr (ih h)

theorem timesMatch_iff (f : String) :
    timesMatch f = true ↔ hasSubstr "Times".data f.data = true := by
  unfold timesMatch
  simp only [Bool.or_eq_true]
  constructor
  · intro h
    rcases h with h | h
    · exact h
    · exact hasSubstr_mono "Times".data "TimesNewRoman".data (by decide) f.data h
  · intro h
    exact Or.inl h

theorem appendToLast_eq (i : Nat) (pre : Sections) (n : String) (ps : List Nat) :
    appendToLast (pre ++ [(n, ps)]) i = pre ++ [(n, ps ++ [i])] := by
  induction pre with
  | nil => rfl
  | cons x pre ih =>
      cases pre with
      | nil => rfl
      | cons y pre2 =>
          simp only [List.cons_append, appendToLast] at ih ⊢
          exact congrArg (x :: ·) ih

/-! ### C1: invalid file short-circuits the analysis -/

/-- C1: whenever the format validator rejects the input, `analyze_pdf`
returns exactly the report whose format mapping is the single entry
`file_type = "fail"` and whose content mapping is empty; no other checker
contributes anything. -/
theorem analyze_pdf_invalid_file (f : PDFFile)
    (limits : Option (List (String × Nat))) (h : is_valid_pdf f = false) :
    analyze_pdf f limits = Except.ok ⟨[("file_type", "fail")], []⟩ := by
  simp [analyze_pdf, h]

/-- Witness for C1 at a concrete rejected file. -/
theorem analyze_pdf_invalid_file_witness :
    analyze_pdf ⟨false, none, none⟩ none
      = Except.ok ⟨[("file_type", "fail")], []⟩ :=
  analyze_pdf_invalid_file ⟨false, none, none⟩ none rfl

/-! ### C3: the worked five-page example -/

/-- C3 counterexample: the example document does NOT produce the content
mapping the claim states (`skills_pages = 1`, `skills = "pass"`). -/
theorem example_doc_claimed_output_refuted :
    detect_sections_dynamic exampleDoc exampleLimits ≠
      [("summary_pages", Val.nat 3), ("summary", Val.str "fail"),
       ("skills_pages", Val.nat 1), ("skills", Val.str "pass")] := by
  decide

/-- C3 amended: the body page after `SKILLS:` is attributed to the skills
section as well, so the example document yields `skills_pages = 2` and,
with limit 1, `skills = "fail"`. -/
theorem example_doc_actual_output :
    detect_sections_dynamic exampleDoc exampleLimits =
      [("summary_pages", Val.nat 3), ("summary", Val.str "fail"),
       ("skills_pages", Val.nat 2), ("skills", Val.str "fail")] := by
  decide

/-! ### C5: typography extraction failure is all-or-nothing -/

/-- C5: when the pdfplumber extraction sequence raises (modelled by a
`none` first page), all three typography fields are `"fail"` as one unit,
and `analyze_pdf` still returns a report normally: the exception never
reaches the caller. -/
theorem check_formatting_exception_all_fail :
    check_formatting none = ⟨"fail", "fail", "fail"⟩ ∧
    ∀ (f : PDFFile) (limits : Option (List (String × Nat)))
      (pgs : List (List String)),
      f.valid = true → f.firstPage = none → f.fitzPages = some pgs →
      analyze_pdf f limits =
        Except.ok ⟨[("file_type", "pass"), ("font_size", "fail"),
                    ("font_family", "fail"), ("margin", "fail")],
                   detect_sections_dynamic pgs limits⟩ := by
  refine ⟨rfl, ?_⟩
  intro f limits pgs hv hp hz
  simp [analyze_pdf, is_valid_pdf, hv, hp, hz, typToList, check_formatting]

/-- Witness for C5 at a concrete file whose first-page extraction
raises. -/
theorem check_formatting_exception_all_fail_witness :
    analyze_pdf ⟨true, none, some []⟩ none =
      Except.ok ⟨[("file_type", "pass"), ("font_size", "fail"),
                  ("font_family", "fail"), ("margin", "fail")], []⟩ := by
  have h := check_formatting_exception_all_fail.2 ⟨true, none, some []⟩
    none [] rfl rfl rfl
  simpa [detect_sections_dynamic, scanDoc, buildResult] using h

/-! ### C9: validator acceptance does not shield the section detector -/

/-- C9 counterexample: a file the PyPDF2-based validator accepts but the
fitz backend fails to open makes `analyze_pdf` raise — `fitz.open` runs
outside any exception handler, and nothing ties the two backends
together. -/
theorem analyze_pdf_accepted_may_raise :
    is_valid_pdf ⟨true, none, none⟩ = true ∧
    analyze_pdf ⟨true, none, none⟩ none = Except.error () :=
  ⟨rfl, rfl⟩

/-- C9 amended: on a validator-accepted file whose fitz open also
succeeds, `analyze_pdf` returns normally with the format and content
mappings populated. -/
theorem analyze_pdf_accepted_fitz_ok (f : PDFFile)
    (limits : Option (List (String × Nat))) (pgs : List (List String))
    (h1 : is_valid_pdf f = true) (h2 : f.fitzPages = some pgs) :
    ∃ r : Report, analyze_pdf f limits = Except.ok r ∧
      r.format = ("file_type", "pass") :: typToList (check_formatting f.firstPage) ∧
      r.content = detect_sections_dynamic pgs limits := by
  refine ⟨⟨("file_type", "pass") :: typToList (check_formatting f.firstPage),
    detect_sections_dynamic pgs limits⟩, ?_, rfl, rfl⟩
  simp [analyze_pdf, h1, h2]

/-- Witness for the amended C9 at a concrete accepted file. -/
theorem analyze_pdf_accepted_fitz_ok_witness :
    ∃ r : Report, analyze_pdf ⟨true, none, some [["SUMMARY"]]⟩ none = Except.ok r ∧
      r.format = ("file_type", "pass")
        :: typToList (check_formatting (none : Option FirstPage)) ∧
      r.content = detect_sections_dynamic [["SUMMARY"]] none :=
  analyze_pdf_accepted_fitz_ok ⟨true, none, some [["SUMMARY"]]⟩ none
    [["SUMMARY"]] rfl rfl

/-! ### C10: duplicate or degenerate headings attribute nothing -/

/-- C10: a line that matches a heading heuristic but normalizes to the
empty name, or to a name already registered, leaves the scan state
untouched: its page is attributed to no section by that line. -/
theorem heading_duplicate_or_empty_noop (i : Nat) (st : Sections)
    (line : String) (hh : isHeading line = true)
    (hd : normalizeName line = "" ∨ containsKey st (normalizeName line) = true) :
    processLine i st line = st := by
  rcases hd with hd | hd
  · simp [processLine, hh, hd, show ("" : String).isEmpty = true from rfl]
  · simp [processLine, hh, hd]

/-- Witness for C10: a page whose only line repeats the `SUMMARY` heading
is not attributed to the summary section. -/
theorem heading_duplicate_or_empty_noop_witness :
    processLine 1 [("summary", [0])] "SUMMARY" = [("summary", [0])] :=
  heading_duplicate_or_empty_noop 1 [("summary", [0])] "SUMMARY"
    (by decide) (Or.inr (by decide))

/-! ### C8: non-heading lines feed the most recently registered section -/

/-- C8: a line matching no heading heuristic attributes its page to the
most recently registered section — the last entry of the scan state in
dictionary insertion order — and to no section when none is registered
yet. -/
theorem nonheading_attributes_last_registered (i : Nat) (st : Sections)
    (line : String) (hh : isHeading line = false) :
    (st = [] → processLine i st line = []) ∧
    (∀ (pre : Sections) (n : String) (ps : List Nat), st = pre ++ [(n, ps)] →
       processLine i st line = pre ++ [(n, ps ++ [i])]) := by
  constructor
  · intro h
    subst h
    simp [processLine, hh]
  · intro pre n ps h
    subst h
    have hne : (pre ++ [(n, ps)]).isEmpty = false := by
      cases pre <;> rfl
    simp [processLine, hh, hne, appendToLast_eq]

/-- Witness for C8: with summary registered before skills, a body line
on page 5 is attributed to skills, the last registered section. -/
theorem nonheading_attributes_last_registered_witness :
    processLine 5 [("summary", [0]), ("skills", [3])] "body" =
      [("summary", [0]), ("skills", [3, 5])] :=
  (nonheading_attributes_last_registered 5
      [("summary", [0]), ("skills", [3])] "body" (by decide)).2
    [("summary", [0])] "skills" [3] rfl

/-! ### C2: the status vocabulary of a detected section -/

theorem mem_buildResult_status (limits : Option (List (String × Nat)))
    (secs : Sections) (sec : String) (ps : List Nat) (h : (sec, ps) ∈ secs) :
    (uKey sec, Val.str (secStatus limits sec (sortedSet ps).length))
      ∈ buildResult limits secs := by
  induction secs with
  | nil => cases h
  | cons x rest ih =>
      rcases x with ⟨s1, p1⟩
      rcases List.mem_cons.mp h with h | h
      · cases h
        simp [buildResult]
      · exact List.mem_cons_of_mem _ (List.mem_cons_of_mem _ (ih h))

/-- C2: each detected section's status entry carries `secStatus`, which is
`"pass"` when the limits mapping holds the section's normalized name and
the distinct-page count is at most the limit (the boundary count equal to
the limit included), `"fail"` when the mapping holds the name and the
count exceeds the limit, and `"n/a"` when the name is absent or no
mapping was supplied. -/
theorem detect_section_status_cases (limits : Option (List (String × Nat)))
    (secs : Sections) (sec : String) (ps : List Nat)
    (hmem : (sec, ps) ∈ secs) :
    (uKey sec, Val.str (secStatus limits sec (sortedSet ps).length))
      ∈ buildResult limits secs ∧
    (∀ l m, limits = some l → lookupLimit l sec = some m →
       secStatus limits sec (sortedSet ps).length
         = if (sortedSet ps).length ≤ m then "pass" else "fail") ∧
    (∀ l, limits = some l → lookupLimit l sec = none →
       secStatus limits sec (sortedSet ps).length = "n/a") ∧
    (limits = none → secStatus limits sec (sortedSet ps).length = "n/a") := by
  refine ⟨mem_buildResult_status limits secs sec ps hmem, ?_, ?_, ?_⟩
  · intro l m hl hm
    subst hl
    have hne : l.isEmpty = false := by
      cases l with
      | nil => simp [lookupLimit] at hm
      | cons a t => rfl
    simp [secStatus, hne, hm]
  · intro l hl hm
    subst hl
    simp [secStatus, hm]
  · intro h
    subst h
    rfl

/-- Witness for C2: one section spanning two distinct pages against a
limit of exactly 2 is reported `"pass"`. -/
theorem detect_section_status_cases_witness :
    (uKey "summary", Val.str "pass")
      ∈ buildResult (some [("summary", 2)]) [("summary", [0, 0, 1])] := by
  have h := detect_section_status_cases (some [("summary", 2)])
    [("summary", [0, 0, 1])] "summary" [0, 0, 1] (by decide)
  have e : secStatus (some [("summary", 2)]) "summary"
      (sortedSet [0, 0, 1]).length = "pass" := by decide
  exact e ▸ h.1

/-! ### C6: page counts are independent of the limits mapping -/

theorem resultPages_buildResult (limits : Option (List (String × Nat)))
    (secs : Sections) :
    resultPages (buildResult limits secs)
      = secs.map (fun p => (uKey p.1 ++ "_pages", (sortedSet p.2).length)) := by
  induction secs with
  | nil => rfl
  | cons x rest ih =>
      rcases x with ⟨s1, p1⟩
      simp [buildResult, resultPages] at ih ⊢
      exact ih

/-- C6: two runs of the section detector on the same document with
different limits mappings emit the same page-count entries, keys and
values alike; only the status values can differ. -/
theorem detect_pages_independent_of_limits (pages : List (List String))
    (l1 l2 : Option (List (String × Nat))) :
    resultPages (detect_sections_dynamic pages l1)
      = resultPages (detect_sections_dynamic pages l2) := by
  unfold detect_sections_dynamic
  rw [resultPages_buildResult, resultPages_buildResult]

/-! ### C7: the shape of the emitted keys -/

/-- C7 counterexample: for the heading line `"A  B:"` (two internal
spaces) the detector emits the keys `"a__b_pages"` and `"a__b"`, not the
claim's `"<name>_pages"` and `"<name>"` built from a whitespace-collapsed
normalized name. -/
theorem section_keys_spec_refuted :
    (detect_sections_dynamic [["A  B:"]] none).map Prod.fst ≠
      [specNormalizeName "A  B:" ++ "_pages", specNormalizeName "A  B:"] := by
  decide

/-- C7 amended: a fresh heading line registers the section under the
source's normalized name (lowercased, non-letter/space characters
stripped, trimmed, internal whitespace NOT collapsed), and the emitted
keys are that name with each space replaced by an underscore, suffixed
`"_pages"` for the count entry and bare for the status entry. -/
theorem section_keys_shape :
    (∀ (i : Nat) (st : Sections) (line : String), isHeading line = true →
       (normalizeName line).isEmpty = false →
       containsKey st (normalizeName line) = false →
       processLine i st line = st ++ [(normalizeName line, [i])]) ∧
    ∀ (limits : Option (List (String × Nat))) (secs : Sections),
      (buildResult limits secs).map Prod.fst
        = secs.flatMap (fun p => [uKey p.1 ++ "_pages", uKey p.1]) := by
  constructor
  · intro i st line hh hne hnc
    simp [processLine, hh, hne, hnc]
  · intro limits secs
    induction secs with
    | nil => rfl
    | cons x rest ih =>
        rcases x with ⟨s1, p1⟩
        simp [buildResult, ih]

/-- Witness for the amended C7 at the `SKILLS:` heading. -/
theorem section_keys_shape_witness :
    processLine 0 [] "SKILLS:" = [("skills", [0])] ∧
    (buildResult none [("skills", [0])]).map Prod.fst
      = ["skills_pages", "skills"] := by
  constructor
  · have h := section_keys_shape.1 0 [] "SKILLS:" (by decide) (by decide)
      (by decide)
    have e : normalizeName "SKILLS:" = "skills" := by decide
    rw [e] at h
    simpa using h
  · have h := section_keys_shape.2 none [("skills", [0])]
    rw [h]
    decide

/-! ### C4: the three typography predicates -/

/-- C4: on a readable first page, `font_size` passes exactly when some
character's size rounds to 12.0, `font_family` passes exactly when some
font name holds `"Times"` as a substring, and `margin` passes exactly
when each of the four margins is within 5 points of 72; a page with no
characters fails both font checks. -/
theorem check_formatting_fields_iff (p : FirstPage) :
    ((check_formatting (some p)).font_size = "pass"
       ↔ ∃ c ∈ p.chars, round1 c.size = 12) ∧
    ((check_formatting (some p)).font_family = "pass"
       ↔ ∃ c ∈ p.chars, hasSubstr "Times".data c.fontname.data = true) ∧
    ((check_formatting (some p)).margin = "pass"
       ↔ (|p.b0 - 72| ≤ 5 ∧ |p.width - p.b2 - 72| ≤ 5 ∧
          |p.height - p.b3 - 72| ≤ 5 ∧ |p.b1 - 72| ≤ 5)) ∧
    (p.chars = [] →
       (check_formatting (some p)).font_size = "fail" ∧
       (check_formatting (some p)).font_family = "fail") := by
  have hfs : (check_formatting (some p)).font_size
      = (if (p.chars.map (fun c => round1 c.size)).any (fun s => decide (s = 12))
         then "pass" else "fail") := rfl
  have hff : (check_formatting (some p)).font_family
      = (if (p.chars.map (fun c => c.fontname)).any timesMatch
         then "pass" else "fail") := rfl
  have hmg : (check_formatting (some p)).margin
      = (if marginOk p.b0 && marginOk (p.width - p.b2) &&
            marginOk (p.height - p.b3) && marginOk p.b1
         then "pass" else "fail") := rfl
  refine ⟨?_, ?_, ?_, ?_⟩
  · rw [hfs, pass_iff]
    simp [List.any_eq_true, List.mem_map]
  · rw [hff, pass_iff]
    simp [List.any_eq_true, List.mem_map, timesMatch_iff]
  · rw [hmg, pass_iff]
    simp only [Bool.and_eq_true, marginOk, decide_eq_true_iff]
    tauto
  · intro h
    rw [hfs, hff, h]
    simp

/-- Witness for C4: a first page with zero characters fails both the
font-size and font-family checks. -/
theorem check_formatting_fields_iff_witness :
    (check_formatting (some ⟨[], 612, 792, 70, 70, 540, 720⟩)).font_size
        = "fail" ∧
    (check_formatting (some ⟨[], 612, 792, 70, 70, 540, 720⟩)).font_family
        = "fail" :=
  (check_formatting_fields_iff ⟨[], 612, 792, 70, 70, 540, 720⟩).2.2.2 rfl

end PDFAnalyzer
